import Mathlib

/-!
# Verification of the triangle-strip artwork renderer

Shallow embedding of the core of `src/artwork-renderer.ts` and of the GLSL
fragment stage `triangle-strip-flow.fs`:

* rail arc-length parameterization (`calculateDistances`): cumulative
  distance tables along the even-indexed and odd-indexed rails of a
  triangle-strip ribbon, independent per-rail normalization, and the
  derived texture dimensions;
* the rectification pass (`updateTexture`) and the compositing pass
  (`render`), modelled as functions on an explicit renderer state that emit
  a trace of GPU events (texture reallocation, clear, photo draw,
  final strip draw);
* the dirty-flag invalidation state machine (area-change and photo-change
  subscription callbacks, consumed at the start of `render`);
* the time-scrolled sample coordinate of the flow fragment stage.

Real-number arithmetic of the source (JS doubles / GLSL floats) is modelled
over `ℝ`; `Math.ceil` is `Int.ceil`.  The framebuffer-status check of
`updateTexture` is modelled as always complete.
-/

namespace Trees

/-- Euclidean distance between two 2-d points, embedding `vec2.distance`. -/
noncomputable def dist2 (p q : ℝ × ℝ) : ℝ :=
  Real.sqrt ((p.1 - q.1) ^ 2 + (p.2 - q.2) ^ 2)

/-- Conversion of a normalized photo position in `[-1,1]^2` to pixel space,
embedding `(photoPos * 0.5 + 0.5) * dimensions` componentwise. -/
def toPixel (dims : ℝ × ℝ) (p : ℝ × ℝ) : ℝ × ℝ :=
  ((p.1 * 0.5 + 0.5) * dims.1, (p.2 * 0.5 + 0.5) * dims.2)

/-- One rail-accumulation loop of `calculateDistances`: starting at index
`i`, while `i < n - 2` set the entry at `i + 2` to the entry at `i` plus the
distance between pixel positions `i` and `i + 2`, then step `i` by 2.
(For `n ≥ 2` the JS condition `i < pointCount - 2` is exactly `i + 2 < n`.) -/
noncomputable def railPass (pix : List (ℝ × ℝ)) (n : ℕ) (arr : List ℝ) (i : ℕ) :
    List ℝ :=
  if i + 2 < n then
    railPass pix n
      (arr.set (i + 2)
        (arr.getD i 0 + dist2 (pix.getD i (0, 0)) (pix.getD (i + 2) (0, 0))))
      (i + 2)
  else arr
termination_by n - i
decreasing_by omega

/-- Index of the last populated entry of the even rail's table
(`lastEvenIndex` in `calculateDistances`). -/
def lastEvenIndex (n : ℕ) : ℕ := if n % 2 = 0 then n - 2 else n - 1

/-- Index of the last populated entry of the odd rail's table
(`lastOddIndex` in `calculateDistances`). -/
def lastOddIndex (n : ℕ) : ℕ := if n % 2 = 0 then n - 1 else n - 2

/-- The outputs written by `calculateDistances` into the renderer's fields. -/
structure CalcResult where
  pixelPositions : List (ℝ × ℝ)
  evenDistances : List ℝ
  oddDistances : List ℝ
  normalizedEvenUVs : List ℝ
  normalizedOddUVs : List ℝ
  textureWidth : ℤ
  textureHeight : ℤ

/-- The function `calculateDistances` of `artwork-renderer.ts`, as a pure function of the
point list's photo positions and the photo's pixel dimensions.  Returns
`none` on the early `pointCount < 2` exit (the caller's fields are then left
untouched). -/
noncomputable def calculateDistances (photoPosList : List (ℝ × ℝ))
    (dims : ℝ × ℝ) : Option CalcResult :=
  let n := photoPosList.length
  if n < 2 then none else
  let pix := photoPosList.map (toPixel dims)
  let evenDistances := railPass pix n (List.replicate n 0) 0
  let oddDistances := railPass pix n (List.replicate n 0) 1
  let maxEvenDistance := evenDistances.getD (lastEvenIndex n) 0
  let maxOddDistance := oddDistances.getD (lastOddIndex n) 0
  let normalizedEvenUVs := evenDistances.map (· / maxEvenDistance)
  let normalizedOddUVs := oddDistances.map (· / maxOddDistance)
  let maxDistance := max maxEvenDistance maxOddDistance
  let edgeDistance0 := dist2 (pix.getD 0 (0, 0)) (pix.getD 1 (0, 0))
  let edgeDistanceLast := dist2 (pix.getD (n - 2) (0, 0)) (pix.getD (n - 1) (0, 0))
  some ⟨pix, evenDistances, oddDistances, normalizedEvenUVs, normalizedOddUVs,
    Int.ceil (max edgeDistance0 edgeDistanceLast), Int.ceil maxDistance⟩

/-- Cumulative arc length along one rail, written directly as a sum of
segment distances: `railDist pix start k` is the distance accumulated after
`k` segments starting from index `start` and stepping by 2. -/
noncomputable def railDist (pix : List (ℝ × ℝ)) (start : ℕ) : ℕ → ℝ
  | 0 => 0
  | k + 1 =>
      railDist pix start k +
        dist2 (pix.getD (start + 2 * k) (0, 0)) (pix.getD (start + 2 * k + 2) (0, 0))

/-- Total arc length of the even rail (segments 0–2, 2–4, …, ending at the
even rail's last populated index). -/
noncomputable def evenRailTotal (pix : List (ℝ × ℝ)) (n : ℕ) : ℝ :=
  railDist pix 0 (lastEvenIndex n / 2)

/-- Total arc length of the odd rail (segments 1–3, 3–5, …, ending at the
odd rail's last populated index). -/
noncomputable def oddRailTotal (pix : List (ℝ × ℝ)) (n : ℕ) : ℝ :=
  railDist pix 1 ((lastOddIndex n - 1) / 2)

/-! ### List access helpers -/

theorem getD_set_self {l : List ℝ} {m : ℕ} {v : ℝ} (h : m < l.length) :
    (l.set m v).getD m 0 = v := by
  simp [List.getD_eq_getElem?_getD, List.getElem?_set, h]

theorem getD_set_ne {l : List ℝ} {m j : ℕ} {v : ℝ} (h : m ≠ j) :
    (l.set m v).getD j 0 = l.getD j 0 := by
  simp [List.getD_eq_getElem?_getD, List.getElem?_set_ne h]

theorem getD_replicate_zero {n j : ℕ} : (List.replicate n (0 : ℝ)).getD j 0 = 0 := by
  simp only [List.getD_eq_getElem?_getD, List.getElem?_replicate]
  by_cases h : j < n <;> simp [h]

theorem getD_map_div {l : List ℝ} {j : ℕ} {c : ℝ} :
    (l.map (· / c)).getD j 0 = l.getD j 0 / c := by
  simp only [List.getD_eq_getElem?_getD, List.getElem?_map]
  cases l[j]? <;> simp

/-! ### Structure of the rail accumulation loop -/

theorem railPass_length (pix : List (ℝ × ℝ)) (n : ℕ) (arr : List ℝ) (i : ℕ) :
    (railPass pix n arr i).length = arr.length := by
  induction arr, i using railPass.induct pix n with
  | case1 arr i h ih =>
      rw [railPass, if_pos h]
      rw [ih]
      exact List.length_set arr _ _
  | case2 arr i h => rw [railPass, if_neg h]

/-- Entries at or below the loop's starting index are never written. -/
theorem railPass_getD_of_le (pix : List (ℝ × ℝ)) (n : ℕ) (arr : List ℝ) (i : ℕ)
    {j : ℕ} (hj : j ≤ i) : (railPass pix n arr i).getD j 0 = arr.getD j 0 := by
  induction arr, i using railPass.induct pix n generalizing j with
  | case1 arr i h ih =>
      rw [railPass, if_pos h]
      rw [ih (le_trans hj (by omega))]
      exact getD_set_ne (by omega)
  | case2 arr i h => rw [railPass, if_neg h]

/-- The step equation of the accumulation loop: each populated entry is the
previous rail entry plus one segment distance. -/
theorem railPass_getD_step (pix : List (ℝ × ℝ)) (n : ℕ) (arr : List ℝ) (i : ℕ)
    {k : ℕ} (hlen : arr.length = n) (hk : i + 2 * k + 2 < n) :
    (railPass pix n arr i).getD (i + 2 * k + 2) 0 =
      (railPass pix n arr i).getD (i + 2 * k) 0 +
        dist2 (pix.getD (i + 2 * k) (0, 0)) (pix.getD (i + 2 * k + 2) (0, 0)) := by
  induction arr, i using railPass.induct pix n generalizing k with
  | case1 arr i h ih =>
      rw [railPass, if_pos h]
      cases k with
      | zero =>
          rw [railPass_getD_of_le pix n _ (i + 2) (by omega)]
          rw [railPass_getD_of_le pix n _ (i + 2) (by omega)]
          simp only [Nat.mul_zero, Nat.add_zero]
          rw [getD_set_self (by omega), getD_set_ne (by omega)]
      | succ k =>
          have h1 : i + 2 * (k + 1) = (i + 2) + 2 * k := by ring
          rw [h1]
          exact ih (by rw [List.length_set]; exact hlen) (by omega)
  | case2 arr i h => omega

/-- The accumulation loop started on a zero array computes the cumulative
segment-distance sums `railDist`. -/
theorem railPass_getD_railDist (pix : List (ℝ × ℝ)) (n start : ℕ) (k : ℕ)
    (hk : start + 2 * k < n) :
    (railPass pix n (List.replicate n 0) start).getD (start + 2 * k) 0 =
      railDist pix start k := by
  induction k with
  | zero =>
      simp only [Nat.mul_zero, Nat.add_zero, railDist]
      rw [railPass_getD_of_le pix n _ start le_rfl]
      exact getD_replicate_zero
  | succ k ih =>
      have h1 : start + 2 * (k + 1) = start + 2 * k + 2 := by ring
      rw [h1, railPass_getD_step pix n _ start (List.length_replicate n 0) (by omega)]
      rw [ih (by omega)]
      rfl

/-- The even rail's last populated table entry is the even rail's total
arc length. -/
theorem even_last_eq_total (pix : List (ℝ × ℝ)) {n : ℕ} (hn : 2 ≤ n) :
    (railPass pix n (List.replicate n 0) 0).getD (lastEvenIndex n) 0 =
      evenRailTotal pix n := by
  have key : 0 + 2 * (lastEvenIndex n / 2) = lastEvenIndex n ∧ lastEvenIndex n < n := by
    unfold lastEvenIndex
    by_cases hpar : n % 2 = 0 <;> simp only [hpar, if_pos, if_neg, if_true, if_false] <;> omega
  have hk : 0 + 2 * (lastEvenIndex n / 2) < n := by rw [key.1]; exact key.2
  have h := railPass_getD_railDist pix n 0 (lastEvenIndex n / 2) hk
  rw [key.1] at h
  rw [evenRailTotal]
  exact h

/-- The odd rail's last populated table entry is the odd rail's total
arc length. -/
theorem odd_last_eq_total (pix : List (ℝ × ℝ)) {n : ℕ} (hn : 2 ≤ n) :
    (railPass pix n (List.replicate n 0) 1).getD (lastOddIndex n) 0 =
      oddRailTotal pix n := by
  have key : 1 + 2 * ((lastOddIndex n - 1) / 2) = lastOddIndex n ∧ lastOddIndex n < n := by
    unfold lastOddIndex
    by_cases hpar : n % 2 = 0 <;> simp only [hpar, if_pos, if_neg, if_true, if_false] <;> omega
  have hk : 1 + 2 * ((lastOddIndex n - 1) / 2) < n := by rw [key.1]; exact key.2
  have h := railPass_getD_railDist pix n 1 ((lastOddIndex n - 1) / 2) hk
  rw [key.1] at h
  rw [oddRailTotal]
  exact h

/-- Inversion of a successful `calculateDistances` run: the length guard
passed and every output field is the corresponding loop result. -/
theorem calc_inversion {pts : List (ℝ × ℝ)} {dims : ℝ × ℝ} {r : CalcResult}
    (h : calculateDistances pts dims = some r) :
    2 ≤ pts.length ∧
    r.pixelPositions = pts.map (toPixel dims) ∧
    r.evenDistances =
      railPass (pts.map (toPixel dims)) pts.length (List.replicate pts.length 0) 0 ∧
    r.oddDistances =
      railPass (pts.map (toPixel dims)) pts.length (List.replicate pts.length 0) 1 ∧
    r.normalizedEvenUVs =
      r.evenDistances.map (· / r.evenDistances.getD (lastEvenIndex pts.length) 0) ∧
    r.normalizedOddUVs =
      r.oddDistances.map (· / r.oddDistances.getD (lastOddIndex pts.length) 0) ∧
    r.textureWidth =
      ⌈max (dist2 (r.pixelPositions.getD 0 (0, 0)) (r.pixelPositions.getD 1 (0, 0)))
        (dist2 (r.pixelPositions.getD (pts.length - 2) (0, 0))
          (r.pixelPositions.getD (pts.length - 1) (0, 0)))⌉ ∧
    r.textureHeight =
      ⌈max (r.evenDistances.getD (lastEvenIndex pts.length) 0)
        (r.oddDistances.getD (lastOddIndex pts.length) 0)⌉ := by
  rw [calculateDistances] at h
  by_cases hn : pts.length < 2
  · simp only [if_pos hn] at h
    exact absurd h (by simp)
  · simp only [if_neg hn] at h
    have hr := (Option.some_injective _ h).symm
    subst hr
    refine ⟨by omega, rfl, rfl, rfl, rfl, rfl, rfl, rfl⟩

/-! ### Evaluating distances on concrete inputs -/

theorem dist2_nonneg (p q : ℝ × ℝ) : 0 ≤ dist2 p q := Real.sqrt_nonneg _

theorem dist2_eval {p q : ℝ × ℝ} {r : ℝ} (hr : 0 ≤ r)
    (h : (p.1 - q.1) ^ 2 + (p.2 - q.2) ^ 2 = r ^ 2) : dist2 p q = r := by
  rw [dist2, h, Real.sqrt_sq hr]

/-- The spec's 4-point rectangular ribbon, by its normalized photo
positions. -/
def squarePhotoPos : List (ℝ × ℝ) := [(-1, -1), (1, -1), (-1, 1), (1, 1)]

/-- Pixel positions of `squarePhotoPos` under a 400 × 400 photo. -/
def squarePix : List (ℝ × ℝ) := [(0, 0), (400, 0), (0, 400), (400, 400)]

theorem dist2_v1 : dist2 ((0 : ℝ), (0 : ℝ)) ((0 : ℝ), (400 : ℝ)) = 400 :=
  dist2_eval (by norm_num) (by norm_num)

theorem dist2_v2 : dist2 ((400 : ℝ), (0 : ℝ)) ((400 : ℝ), (400 : ℝ)) = 400 :=
  dist2_eval (by norm_num) (by norm_num)

theorem dist2_h1 : dist2 ((0 : ℝ), (0 : ℝ)) ((400 : ℝ), (0 : ℝ)) = 400 :=
  dist2_eval (by norm_num) (by norm_num)

theorem dist2_h2 : dist2 ((0 : ℝ), (400 : ℝ)) ((400 : ℝ), (400 : ℝ)) = 400 :=
  dist2_eval (by norm_num) (by norm_num)

theorem squarePhotoPos_map :
    squarePhotoPos.map (toPixel ((400 : ℝ), (400 : ℝ))) = squarePix := by
  norm_num [squarePhotoPos, squarePix, toPixel]

theorem railPass_square_even :
    railPass squarePix 4 (List.replicate 4 0) 0 = [0, 0, 400, 0] := by
  rw [railPass, if_pos (by norm_num), railPass, if_neg (by norm_num)]
  norm_num [squarePix, List.getD, List.set, List.replicate, dist2_v1, -Prod.mk_zero_zero]

theorem railPass_square_odd :
    railPass squarePix 4 (List.replicate 4 0) 1 = [0, 0, 0, 400] := by
  rw [railPass, if_pos (by norm_num), railPass, if_neg (by norm_num)]
  norm_num [squarePix, List.getD, List.set, List.replicate, dist2_v2, -Prod.mk_zero_zero]

/-- The `calculateDistances` output on the 4-point square with a 400 × 400
photo. -/
def squareCalc : CalcResult :=
  ⟨squarePix, [0, 0, 400, 0], [0, 0, 0, 400], [0, 0, 1, 0], [0, 0, 0, 1], 400, 400⟩

/-- Full evaluation of `calculateDistances` on the 4-point square with a
400 × 400 photo. -/
theorem calc_square :
    calculateDistances squarePhotoPos ((400 : ℝ), (400 : ℝ)) = some squareCalc := by
  rw [squareCalc]
  have hlen : squarePhotoPos.length = 4 := by simp [squarePhotoPos]
  rw [calculateDistances]
  simp only [hlen, squarePhotoPos_map, railPass_square_even, railPass_square_odd,
    lastEvenIndex, lastOddIndex]
  norm_num [squarePix, List.getD, dist2_h1, dist2_h2, -Prod.mk_zero_zero]

/-! ### Renderer state machine and GPU event traces -/

/-- Observable GPU calls of the pipeline: reallocation of the generated
texture's storage (`texImage2D` at a size), clearing the rectification
target, the rectification draw of the photo, and the final compositing
strip draw against the caller's target surface. -/
inductive GpuEvent where
  | texImage2D (w h : ℤ)
  | clear
  | drawPhoto (count : ℕ)
  | drawStrip (count : ℕ)
deriving DecidableEq

/-- A boundary point: projector-space position plus depth, and a normalized
photo-space position. -/
structure Pt where
  position : ℝ × ℝ
  depth : ℝ
  photoPos : ℝ × ℝ

/-- The mutable fields of `TriangleStripArtworkRenderer`, plus a ghost
field `allocatedDims` recording the size of the generated texture's last
`texImage2D` allocation. -/
structure RState where
  points : List Pt
  photoTexture : Option Unit
  photoDimensions : Option (ℝ × ℝ)
  needsRegeneration : Bool
  evenDistances : List ℝ
  oddDistances : List ℝ
  normalizedEvenUVs : List ℝ
  normalizedOddUVs : List ℝ
  textureWidth : ℤ
  textureHeight : ℤ
  vertexCount : ℕ
  allocatedDims : Option (ℤ × ℤ)

/-- The renderer's state right after construction over an area holding
`pts`. -/
def initState (pts : List Pt) : RState :=
  ⟨pts, none, none, false, [], [], [], [], 0, 0, 0, none⟩

/-- The area-change subscription callback: it only sets the dirty flag.
The second component is the (empty) list of GPU events it performs. -/
def onAreaChange (s : RState) : RState × List GpuEvent :=
  ({ s with needsRegeneration := true }, [])

/-- The photo-change subscription callback: it stores the new photo handle
and dimensions and sets the dirty flag; it performs no GPU events. -/
def onPhotoChange (t : Unit) (d : ℝ × ℝ) (s : RState) : RState × List GpuEvent :=
  ({ s with
      photoTexture := some t, photoDimensions := some d,
      needsRegeneration := true }, [])

/-- A ribbon edit by the host: it mutates the area's point list and the
area then notifies its subscribers, firing `onAreaChange`. -/
def editPoints (ps : List Pt) (s : RState) : RState :=
  (onAreaChange { s with points := ps }).1

/-- The stateful effect of `this.calculateDistances(dimensions)`: on fewer
than 2 points the early return leaves every field untouched. -/
noncomputable def calcDistStep (s : RState) (dims : ℝ × ℝ) : RState :=
  match calculateDistances (s.points.map Pt.photoPos) dims with
  | none => s
  | some r =>
      { s with
        evenDistances := r.evenDistances, oddDistances := r.oddDistances,
        normalizedEvenUVs := r.normalizedEvenUVs,
        normalizedOddUVs := r.normalizedOddUVs,
        textureWidth := r.textureWidth, textureHeight := r.textureHeight }

/-- Embeds `this.updateTexture()`: returns the post state, the GPU event trace,
and whether the no-photo early return (leave the texture black) was taken.
The framebuffer-status check is modelled as always complete. -/
def updateTexture (s : RState) : RState × List GpuEvent × Bool :=
  if s.textureWidth = 0 ∨ s.textureHeight = 0 then (s, [], false)
  else
    let ev0 := [GpuEvent.texImage2D s.textureWidth s.textureHeight, GpuEvent.clear]
    let s1 := { s with allocatedDims := some (s.textureWidth, s.textureHeight) }
    if s.photoTexture.isNone ∨ s.photoDimensions.isNone then (s1, ev0, true)
    else if s.points.length < 2 then (s1, ev0, false)
    else (s1, ev0 ++ [GpuEvent.drawPhoto s.points.length], false)

/-- Embeds `this.updateVertexBuffers()`: the cached vertex count is replaced by
the current point count only when at least 2 points are present. -/
def updateVertexBuffers (s : RState) : RState :=
  if s.points.length < 2 then s else { s with vertexCount := s.points.length }

/-- Embeds `this.updateGeometry(dimensions)`: distance computation, rectification
pass, vertex-buffer rebuild.  The boolean records whether the rectification
pass took its no-photo early return. -/
noncomputable def updateGeometry (s : RState) (dims : ℝ × ℝ) :
    RState × List GpuEvent × Bool :=
  let s1 := calcDistStep s dims
  let res := updateTexture s1
  (updateVertexBuffers res.1, res.2.1, res.2.2)

/-- The head of `render`: if the dirty flag is set and both the photo
handle and photo dimensions are present, run `updateGeometry` and reset the
flag; otherwise do nothing. -/
noncomputable def regenStep (s : RState) : RState × List GpuEvent :=
  match s.needsRegeneration, s.photoTexture, s.photoDimensions with
  | true, some _, some d =>
      let res := updateGeometry s d
      ({ res.1 with needsRegeneration := false }, res.2.1)
  | _, _, _ => (s, [])

/-- Embeds `render(time, target)`: services the dirty flag (regenerating only when
a photo is present and resetting the flag), then draws the strip unless the
cached vertex count is below 2 or no photo is bound.  The `time` uniform
does not influence which GPU calls are issued, so it is not a parameter. -/
noncomputable def render (s : RState) : RState × List GpuEvent :=
  let step := regenStep s
  if step.1.vertexCount < 2 ∨ step.1.photoTexture = none then step
  else (step.1, step.2 ++ [GpuEvent.drawStrip step.1.vertexCount])

/-- Whether the no-photo early return inside `updateTexture` is taken
during the regeneration (if any) performed by a `render` call. -/
noncomputable def renderNoPhotoBranchTaken (s : RState) : Bool :=
  match s.needsRegeneration, s.photoTexture, s.photoDimensions with
  | true, some _, some d => (updateGeometry s d).2.2
  | _, _, _ => false

/-- Whether an event reallocates the generated texture's storage. -/
def isTexImage : GpuEvent → Bool
  | GpuEvent.texImage2D _ _ => true
  | _ => false

/-- Whether an event is the compositing draw against the target surface. -/
def isDrawStrip : GpuEvent → Bool
  | GpuEvent.drawStrip _ => true
  | _ => false

/-- Whether an event is the rectification draw of the photo. -/
def isDrawPhoto : GpuEvent → Bool
  | GpuEvent.drawPhoto _ => true
  | _ => false

/-- Events belonging to the regeneration (rectification) stage, as opposed
to the compositing draw. -/
def isRegenEvent : GpuEvent → Bool
  | GpuEvent.drawStrip _ => false
  | _ => true

/-! ### The flow fragment stage (triangle-strip-flow.fs) -/

/-- GLSL `mod(x, y) = x - y * floor(x / y)`. -/
noncomputable def glslMod (x y : ℝ) : ℝ := x - y * (⌊x / y⌋ : ℤ)

/-- The scrolled sample coordinate of the flow fragment stage:
`vec2(uv.x, mod(uv.y + time, 2.0))`. -/
noncomputable def scrollUv (uv : ℝ × ℝ) (time : ℝ) : ℝ × ℝ :=
  (uv.1, glslMod (uv.2 + time) 2)

/-- Mirrored-repeat addressing (GL mirrored repeat wrap): a sample coordinate is folded into
`[0,1]` with period 2, reflecting on every other period. -/
noncomputable def mirrorCoord (x : ℝ) : ℝ :=
  min (glslMod x 2) (2 - glslMod x 2)

/-- Sampling a texture whose two wrap modes are both `MIRRORED_REPEAT`. -/
noncomputable def sampleMirrored {C : Type} (tex : ℝ × ℝ → C) (uv : ℝ × ℝ) : C :=
  tex (mirrorCoord uv.1, mirrorCoord uv.2)

/-- The flow fragment stage: sample the generated texture at the scrolled
coordinate. -/
noncomputable def flowFragment {C : Type} (tex : ℝ × ℝ → C) (uv : ℝ × ℝ)
    (time : ℝ) : C :=
  sampleMirrored tex (scrollUv uv time)

theorem glslMod_two_add_two_int (x : ℝ) (k : ℤ) :
    glslMod (x + 2 * k) 2 = glslMod x 2 := by
  rw [glslMod, glslMod]
  have h : (x + 2 * (k : ℝ)) / 2 = x / 2 + (k : ℝ) := by ring
  rw [h, Int.floor_add_int]
  push_cast
  ring

/-! ### Texture dimensions of a successful run -/

/-- The texture dimensions computed by `calculateDistances`, expressed over
the cross-rail edge lengths and the per-rail total arc lengths. -/
theorem tex_dims_spec {pts : List (ℝ × ℝ)} {dims : ℝ × ℝ} {r : CalcResult}
    (h : calculateDistances pts dims = some r) :
    r.textureWidth =
      ⌈max (dist2 ((pts.map (toPixel dims)).getD 0 (0, 0))
          ((pts.map (toPixel dims)).getD 1 (0, 0)))
        (dist2 ((pts.map (toPixel dims)).getD (pts.length - 2) (0, 0))
          ((pts.map (toPixel dims)).getD (pts.length - 1) (0, 0)))⌉ ∧
    r.textureHeight =
      ⌈max (evenRailTotal (pts.map (toPixel dims)) pts.length)
        (oddRailTotal (pts.map (toPixel dims)) pts.length)⌉ := by
  obtain ⟨hn, hpix, hev, hod, _, _, hw, hh⟩ := calc_inversion h
  constructor
  · rw [hw, hpix]
  · rw [hh, hev, hod, even_last_eq_total _ hn, odd_last_eq_total _ hn]

/-! ### Degenerate 2-point ribbon (coincident points) -/

/-- A loop that starts past its bound leaves the array untouched. -/
theorem railPass_stop (pix : List (ℝ × ℝ)) (n : ℕ) (arr : List ℝ) (i : ℕ)
    (h : ¬ (i + 2 < n)) : railPass pix n arr i = arr := by
  rw [railPass, if_neg h]

/-- Two coincident boundary points at the photo's lower-left corner. -/
def degPhotoPos : List (ℝ × ℝ) := [(-1, -1), (-1, -1)]

theorem dist2_deg : dist2 ((0 : ℝ), (0 : ℝ)) ((0 : ℝ), (0 : ℝ)) = 0 :=
  dist2_eval le_rfl (by norm_num)

theorem degPhotoPos_map :
    degPhotoPos.map (toPixel ((1 : ℝ), (1 : ℝ))) = [((0 : ℝ), (0 : ℝ)), (0, 0)] := by
  norm_num [degPhotoPos, toPixel, -Prod.mk_zero_zero]

/-- On the coincident 2-point ribbon with a 1 × 1 photo, both computed
texture dimensions are zero. -/
theorem calc_deg :
    calculateDistances degPhotoPos ((1 : ℝ), (1 : ℝ)) =
      some ⟨[(0, 0), (0, 0)], [0, 0], [0, 0], [0, 0], [0, 0], 0, 0⟩ := by
  have hlen : degPhotoPos.length = 2 := by simp [degPhotoPos]
  rw [calculateDistances]
  simp only [hlen, degPhotoPos_map, lastEvenIndex, lastOddIndex]
  rw [railPass_stop _ _ _ _ (by norm_num), railPass_stop _ _ _ _ (by norm_num)]
  norm_num [List.getD, List.replicate, dist2_deg, -Prod.mk_zero_zero]

/-- Rail totals of the square scenario. -/
theorem evenRailTotal_square : evenRailTotal squarePix 4 = 400 := by
  rw [evenRailTotal, lastEvenIndex]
  norm_num [railDist, squarePix, List.getD, dist2_v1, -Prod.mk_zero_zero]

theorem oddRailTotal_square : oddRailTotal squarePix 4 = 400 := by
  rw [oddRailTotal, lastOddIndex]
  norm_num [railDist, squarePix, List.getD, dist2_v2, -Prod.mk_zero_zero]

/-! ## Claims -/

/-- C1: for the 4-point ribbon at normalized photo positions
(-1,-1),(1,-1),(-1,1),(1,1) and a 400 × 400 photo, `calculateDistances`
produces pixel positions (0,0),(400,0),(0,400),(400,400), even-rail
distance-table entries 0 and 400 at indices 0 and 2, odd-rail entries 0 and
400 at indices 1 and 3, normalized entries 0 and 1 on each rail, and
texture dimensions exactly 400 × 400. -/
theorem c1_square_scenario :
    ∃ r, calculateDistances squarePhotoPos ((400 : ℝ), (400 : ℝ)) = some r ∧
      r.pixelPositions = [(0, 0), (400, 0), (0, 400), (400, 400)] ∧
      r.evenDistances.getD 0 0 = 0 ∧ r.evenDistances.getD 2 0 = 400 ∧
      r.oddDistances.getD 1 0 = 0 ∧ r.oddDistances.getD 3 0 = 400 ∧
      r.normalizedEvenUVs.getD 0 0 = 0 ∧ r.normalizedEvenUVs.getD 2 0 = 1 ∧
      r.normalizedOddUVs.getD 1 0 = 0 ∧ r.normalizedOddUVs.getD 3 0 = 1 ∧
      r.textureWidth = 400 ∧ r.textureHeight = 400 := by
  refine ⟨squareCalc, calc_square, ?_⟩
  norm_num [squareCalc, squarePix, List.getD]

/-- C2: for every ribbon with at least 2 points, each normalized rail table
has value 0 at the rail's first index (0 on the even rail, 1 on the odd
rail) and value 1 at the rail's last populated index, provided each rail's
total arc length is nonzero. -/
theorem c2_normalized_endpoints {pts : List (ℝ × ℝ)} {dims : ℝ × ℝ}
    {r : CalcResult} (h : calculateDistances pts dims = some r)
    (hE : evenRailTotal (pts.map (toPixel dims)) pts.length ≠ 0)
    (hO : oddRailTotal (pts.map (toPixel dims)) pts.length ≠ 0) :
    r.normalizedEvenUVs.getD 0 0 = 0 ∧
    r.normalizedOddUVs.getD 1 0 = 0 ∧
    r.normalizedEvenUVs.getD (lastEvenIndex pts.length) 0 = 1 ∧
    r.normalizedOddUVs.getD (lastOddIndex pts.length) 0 = 1 := by
  obtain ⟨hn, hpix, hev, hod, hnE, hnO, _, _⟩ := calc_inversion h
  have hmE : r.evenDistances.getD (lastEvenIndex pts.length) 0 ≠ 0 := by
    rw [hev, even_last_eq_total _ hn]; exact hE
  have hmO : r.oddDistances.getD (lastOddIndex pts.length) 0 ≠ 0 := by
    rw [hod, odd_last_eq_total _ hn]; exact hO
  refine ⟨?_, ?_, ?_, ?_⟩
  · rw [hnE, getD_map_div, hev,
      railPass_getD_of_le _ _ _ 0 le_rfl, getD_replicate_zero, zero_div]
  · rw [hnO, getD_map_div, hod,
      railPass_getD_of_le _ _ _ 1 le_rfl, getD_replicate_zero, zero_div]
  · rw [hnE, getD_map_div, div_self hmE]
  · rw [hnO, getD_map_div, div_self hmO]

/-- C2 witness: the square scenario has nonzero rail totals, and the
normalized tables start at 0 and end at 1. -/
theorem c2_normalized_endpoints_w :
    evenRailTotal (squarePhotoPos.map (toPixel ((400 : ℝ), (400 : ℝ))))
        squarePhotoPos.length ≠ 0 ∧
    oddRailTotal (squarePhotoPos.map (toPixel ((400 : ℝ), (400 : ℝ))))
        squarePhotoPos.length ≠ 0 ∧
    squareCalc.normalizedEvenUVs.getD 0 0 = 0 ∧
    squareCalc.normalizedOddUVs.getD 1 0 = 0 ∧
    squareCalc.normalizedEvenUVs.getD (lastEvenIndex squarePhotoPos.length) 0 = 1 ∧
    squareCalc.normalizedOddUVs.getD (lastOddIndex squarePhotoPos.length) 0 = 1 := by
  have hlen : squarePhotoPos.length = 4 := by simp [squarePhotoPos]
  have hE : evenRailTotal (squarePhotoPos.map (toPixel ((400 : ℝ), (400 : ℝ))))
      squarePhotoPos.length ≠ 0 := by
    rw [squarePhotoPos_map, hlen, evenRailTotal_square]; norm_num
  have hO : oddRailTotal (squarePhotoPos.map (toPixel ((400 : ℝ), (400 : ℝ))))
      squarePhotoPos.length ≠ 0 := by
    rw [squarePhotoPos_map, hlen, oddRailTotal_square]; norm_num
  obtain ⟨h1, h2, h3, h4⟩ := c2_normalized_endpoints calc_square hE hO
  exact ⟨hE, hO, h1, h2, h3, h4⟩

/-- C3: the rail distance tables are monotonically non-decreasing along
each rail (entry at `i + 2` is at least the entry at `i` for every valid
rail index `i`), and each rail's first entry is 0. -/
theorem c3_rail_monotone {pts : List (ℝ × ℝ)} {dims : ℝ × ℝ} {r : CalcResult}
    (h : calculateDistances pts dims = some r) :
    r.evenDistances.getD 0 0 = 0 ∧ r.oddDistances.getD 1 0 = 0 ∧
    (∀ i, i % 2 = 0 → i + 2 < pts.length →
      r.evenDistances.getD i 0 ≤ r.evenDistances.getD (i + 2) 0) ∧
    (∀ i, i % 2 = 1 → i + 2 < pts.length →
      r.oddDistances.getD i 0 ≤ r.oddDistances.getD (i + 2) 0) := by
  obtain ⟨hn, hpix, hev, hod, _, _, _, _⟩ := calc_inversion h
  refine ⟨?_, ?_, ?_, ?_⟩
  · rw [hev, railPass_getD_of_le _ _ _ 0 le_rfl, getD_replicate_zero]
  · rw [hod, railPass_getD_of_le _ _ _ 1 le_rfl, getD_replicate_zero]
  · intro i hi hlt
    have hi2 : 0 + 2 * (i / 2) = i := by omega
    have hstep := railPass_getD_step (pts.map (toPixel dims)) pts.length
      (List.replicate pts.length 0) 0 (k := i / 2) (by simp) (by omega)
    rw [hi2] at hstep
    rw [hev, hstep]
    exact le_add_of_nonneg_right (dist2_nonneg _ _)
  · intro i hi hlt
    have hi2 : 1 + 2 * ((i - 1) / 2) = i := by omega
    have hstep := railPass_getD_step (pts.map (toPixel dims)) pts.length
      (List.replicate pts.length 0) 1 (k := (i - 1) / 2) (by simp) (by omega)
    rw [hi2] at hstep
    rw [hod, hstep]
    exact le_add_of_nonneg_right (dist2_nonneg _ _)

/-- C3 witness: instantiation on the square scenario. -/
theorem c3_rail_monotone_w :
    squareCalc.evenDistances.getD 0 0 = 0 ∧
    squareCalc.oddDistances.getD 1 0 = 0 ∧
    (∀ i, i % 2 = 0 → i + 2 < squarePhotoPos.length →
      squareCalc.evenDistances.getD i 0 ≤ squareCalc.evenDistances.getD (i + 2) 0) ∧
    (∀ i, i % 2 = 1 → i + 2 < squarePhotoPos.length →
      squareCalc.oddDistances.getD i 0 ≤ squareCalc.oddDistances.getD (i + 2) 0) :=
  c3_rail_monotone calc_square

/-- C4: the computed texture width is the ceiling of the larger cross-rail
edge length, and the texture height is the ceiling of the larger of the two
rails' total arc lengths. -/
theorem c4_texture_dims {pts : List (ℝ × ℝ)} {dims : ℝ × ℝ} {r : CalcResult}
    (h : calculateDistances pts dims = some r) :
    r.textureWidth =
      ⌈max (dist2 ((pts.map (toPixel dims)).getD 0 (0, 0))
          ((pts.map (toPixel dims)).getD 1 (0, 0)))
        (dist2 ((pts.map (toPixel dims)).getD (pts.length - 2) (0, 0))
          ((pts.map (toPixel dims)).getD (pts.length - 1) (0, 0)))⌉ ∧
    r.textureHeight =
      ⌈max (evenRailTotal (pts.map (toPixel dims)) pts.length)
        (oddRailTotal (pts.map (toPixel dims)) pts.length)⌉ :=
  tex_dims_spec h

/-- C4 witness: instantiation on the square scenario. -/
theorem c4_texture_dims_w :
    squareCalc.textureWidth =
      ⌈max (dist2 ((squarePhotoPos.map (toPixel ((400 : ℝ), (400 : ℝ)))).getD 0 (0, 0))
          ((squarePhotoPos.map (toPixel ((400 : ℝ), (400 : ℝ)))).getD 1 (0, 0)))
        (dist2
          ((squarePhotoPos.map (toPixel ((400 : ℝ), (400 : ℝ)))).getD
            (squarePhotoPos.length - 2) (0, 0))
          ((squarePhotoPos.map (toPixel ((400 : ℝ), (400 : ℝ)))).getD
            (squarePhotoPos.length - 1) (0, 0)))⌉ ∧
    squareCalc.textureHeight =
      ⌈max (evenRailTotal (squarePhotoPos.map (toPixel ((400 : ℝ), (400 : ℝ))))
          squarePhotoPos.length)
        (oddRailTotal (squarePhotoPos.map (toPixel ((400 : ℝ), (400 : ℝ))))
          squarePhotoPos.length)⌉ :=
  c4_texture_dims calc_square

/-- C7: the scrolled sample coordinate is periodic in time with period 2:
`mod(v + (t + 2k), 2) = mod(v + t, 2)` for every integer `k`, and hence the
flow fragment stage samples the identical color under mirrored-repeat
addressing. -/
theorem c7_scroll_periodic {C : Type} (tex : ℝ × ℝ → C) (u v t : ℝ) (k : ℤ) :
    glslMod (v + (t + 2 * k)) 2 = glslMod (v + t) 2 ∧
    flowFragment tex (u, v) (t + 2 * k) = flowFragment tex (u, v) t := by
  have h2 : glslMod (v + (t + 2 * (k : ℝ))) 2 = glslMod (v + t) 2 := by
    rw [show v + (t + 2 * (k : ℝ)) = (v + t) + 2 * (k : ℝ) by ring]
    exact glslMod_two_add_two_int _ k
  refine ⟨h2, ?_⟩
  rw [flowFragment, flowFragment, scrollUv, scrollUv]
  simp only [h2]

/-- C9 counterexample: on the coincident 2-point ribbon with strictly
positive 1 × 1 photo dimensions, `calculateDistances` succeeds but both
computed texture dimensions are 0, not strictly positive. -/
theorem c9_positive_dims_cex :
    (calculateDistances degPhotoPos ((1 : ℝ), (1 : ℝ))).map CalcResult.textureWidth =
        some 0 ∧
    (calculateDistances degPhotoPos ((1 : ℝ), (1 : ℝ))).map CalcResult.textureHeight =
        some 0 ∧
    degPhotoPos.length = 2 ∧ ((0 : ℝ) < 1 ∧ (0 : ℝ) < 1) := by
  rw [calc_deg]
  refine ⟨rfl, rfl, by simp [degPhotoPos], by norm_num⟩

/-- C9 (amended): for every ribbon with at least 2 points and positive
photo dimensions, the computed texture dimensions are strictly positive
integers, provided the larger cross-rail edge length and the larger rail
total are strictly positive (coincident boundary points can defeat this,
giving a ceiling of 0). -/
theorem c9_positive_dims {pts : List (ℝ × ℝ)} {dims : ℝ × ℝ} {r : CalcResult}
    (h : calculateDistances pts dims = some r)
    (hdim1 : 0 < dims.1) (hdim2 : 0 < dims.2)
    (hw : 0 < max (dist2 ((pts.map (toPixel dims)).getD 0 (0, 0))
          ((pts.map (toPixel dims)).getD 1 (0, 0)))
        (dist2 ((pts.map (toPixel dims)).getD (pts.length - 2) (0, 0))
          ((pts.map (toPixel dims)).getD (pts.length - 1) (0, 0))))
    (hh : 0 < max (evenRailTotal (pts.map (toPixel dims)) pts.length)
        (oddRailTotal (pts.map (toPixel dims)) pts.length)) :
    0 < r.textureWidth ∧ 0 < r.textureHeight := by
  obtain ⟨h1, h2⟩ := tex_dims_spec h
  constructor
  · rw [h1]; exact Int.ceil_pos.mpr hw
  · rw [h2]; exact Int.ceil_pos.mpr hh

/-- C9 witness: on the square scenario all hypotheses hold and both texture
dimensions are positive. -/
theorem c9_positive_dims_w :
    (0 : ℝ) < 400 ∧
    0 < squareCalc.textureWidth ∧ 0 < squareCalc.textureHeight := by
  have hlen : squarePhotoPos.length = 4 := by simp [squarePhotoPos]
  have hw : 0 < max (dist2 ((squarePhotoPos.map (toPixel ((400 : ℝ), (400 : ℝ)))).getD 0 (0, 0))
        ((squarePhotoPos.map (toPixel ((400 : ℝ), (400 : ℝ)))).getD 1 (0, 0)))
      (dist2 ((squarePhotoPos.map (toPixel ((400 : ℝ), (400 : ℝ)))).getD
          (squarePhotoPos.length - 2) (0, 0))
        ((squarePhotoPos.map (toPixel ((400 : ℝ), (400 : ℝ)))).getD
          (squarePhotoPos.length - 1) (0, 0))) := by
    rw [squarePhotoPos_map, hlen]
    norm_num [squarePix, List.getD, dist2_h1, dist2_h2, -Prod.mk_zero_zero]
  have hh : 0 < max (evenRailTotal (squarePhotoPos.map (toPixel ((400 : ℝ), (400 : ℝ))))
        squarePhotoPos.length)
      (oddRailTotal (squarePhotoPos.map (toPixel ((400 : ℝ), (400 : ℝ))))
        squarePhotoPos.length) := by
    rw [squarePhotoPos_map, hlen, evenRailTotal_square, oddRailTotal_square]
    norm_num
  obtain ⟨hA, hB⟩ :=
    c9_positive_dims calc_square (by norm_num) (by norm_num) hw hh
  exact ⟨by norm_num, hA, hB⟩

/-! ### Concrete traces through the state machine -/

/-- The demo's 4-point square strip, with photo positions at the photo
corners. -/
def squareStripPts : List Pt :=
  [⟨(-0.5, -0.5), 0, (-1, -1)⟩, ⟨(0.5, -0.5), 0, (1, -1)⟩,
   ⟨(-0.5, 0.5), 0, (-1, 1)⟩, ⟨(0.5, 0.5), 0, (1, 1)⟩]

theorem squareStripPts_photoPos :
    squareStripPts.map Pt.photoPos = squarePhotoPos := rfl

/-- A single remaining boundary point after edits removed the others. -/
def onePt : Pt := ⟨(-0.5, -0.5), 0, (-1, -1)⟩

theorem onePt_photoPos : [onePt].map Pt.photoPos = [((-1 : ℝ), (-1 : ℝ))] := rfl

theorem calc_one :
    calculateDistances [((-1 : ℝ), (-1 : ℝ))] ((400 : ℝ), (400 : ℝ)) = none := by
  rw [calculateDistances]
  norm_num

/-- Freshly constructed renderer over the square strip. -/
def state0 : RState := initState squareStripPts

/-- After the photo callback binds a 400 × 400 photo. -/
def state1 : RState := (onPhotoChange () ((400 : ℝ), (400 : ℝ)) state0).1

/-- After the first render call (a full regeneration and draw). -/
noncomputable def state2 : RState := (render state1).1

/-- After an edit leaves the ribbon with a single point (area callback
fires, setting the dirty flag). -/
noncomputable def state3 : RState := editPoints [onePt] state2

/-- After an area-change notification with unchanged geometry. -/
noncomputable def state5 : RState := (onAreaChange state2).1

theorem state1_eq :
    state1 = ⟨squareStripPts, some (), some ((400 : ℝ), (400 : ℝ)), true,
      [], [], [], [], 0, 0, 0, none⟩ := rfl

/-- Full evaluation of the first render: reallocation at 400 × 400, clear,
rectification draw of the 4 points, compositing draw of the 4 vertices. -/
theorem render_state1 :
    render state1 =
      (⟨squareStripPts, some (), some ((400 : ℝ), (400 : ℝ)), false,
        [0, 0, 400, 0], [0, 0, 0, 400], [0, 0, 1, 0], [0, 0, 0, 1],
        400, 400, 4, some (400, 400)⟩,
       [GpuEvent.texImage2D 400 400, GpuEvent.clear, GpuEvent.drawPhoto 4,
        GpuEvent.drawStrip 4]) := by
  rw [state1_eq]
  simp only [render, regenStep, updateGeometry, calcDistStep, squareStripPts_photoPos,
    calc_square, updateTexture, updateVertexBuffers, squareCalc]
  norm_num [squareStripPts]
  exact Option.some_ne_none ()

theorem state3_eq :
    state3 = ⟨[onePt], some (), some ((400 : ℝ), (400 : ℝ)), true,
      [0, 0, 400, 0], [0, 0, 0, 400], [0, 0, 1, 0], [0, 0, 0, 1],
      400, 400, 4, some (400, 400)⟩ := by
  rw [state3, state2, editPoints, onAreaChange, render_state1]

/-- Full evaluation of the render after the ribbon dropped to one point:
the stale 400 × 400 texture is reallocated and cleared, the rectification
draw is skipped, and the compositing draw still runs on the stale 4-vertex
buffers. -/
theorem render_state3 :
    render state3 =
      (⟨[onePt], some (), some ((400 : ℝ), (400 : ℝ)), false,
        [0, 0, 400, 0], [0, 0, 0, 400], [0, 0, 1, 0], [0, 0, 0, 1],
        400, 400, 4, some (400, 400)⟩,
       [GpuEvent.texImage2D 400 400, GpuEvent.clear, GpuEvent.drawStrip 4]) := by
  rw [state3_eq]
  simp only [render, regenStep, updateGeometry, calcDistStep, onePt_photoPos, calc_one,
    updateTexture, updateVertexBuffers]
  norm_num [onePt]
  exact Option.some_ne_none ()

theorem state5_eq :
    state5 = ⟨squareStripPts, some (), some ((400 : ℝ), (400 : ℝ)), true,
      [0, 0, 400, 0], [0, 0, 0, 400], [0, 0, 1, 0], [0, 0, 0, 1],
      400, 400, 4, some (400, 400)⟩ := by
  rw [state5, state2, onAreaChange, render_state1]

/-- Full evaluation of the render after a no-op geometry notification: the
newly computed texture dimensions equal the allocated ones, yet the texture
is reallocated. -/
theorem render_state5 :
    render state5 =
      (⟨squareStripPts, some (), some ((400 : ℝ), (400 : ℝ)), false,
        [0, 0, 400, 0], [0, 0, 0, 400], [0, 0, 1, 0], [0, 0, 0, 1],
        400, 400, 4, some (400, 400)⟩,
       [GpuEvent.texImage2D 400 400, GpuEvent.clear, GpuEvent.drawPhoto 4,
        GpuEvent.drawStrip 4]) := by
  rw [state5_eq]
  simp only [render, regenStep, updateGeometry, calcDistStep, squareStripPts_photoPos,
    calc_square, updateTexture, updateVertexBuffers, squareCalc]
  norm_num [squareStripPts]
  exact Option.some_ne_none ()

/-! ### Generic facts about the regeneration step -/

theorem calcDistStep_photoTexture (s : RState) (d : ℝ × ℝ) :
    (calcDistStep s d).photoTexture = s.photoTexture := by
  rw [calcDistStep]
  cases calculateDistances (s.points.map Pt.photoPos) d <;> rfl

theorem calcDistStep_photoDimensions (s : RState) (d : ℝ × ℝ) :
    (calcDistStep s d).photoDimensions = s.photoDimensions := by
  rw [calcDistStep]
  cases calculateDistances (s.points.map Pt.photoPos) d <;> rfl

theorem regenStep_not_dirty {s : RState} (h : s.needsRegeneration = false) :
    regenStep s = (s, []) := by
  cases hpt : s.photoTexture <;> cases hpd : s.photoDimensions <;>
    simp [regenStep, h, hpt, hpd]

theorem regenStep_no_photo {s : RState} (h : s.photoTexture = none) :
    regenStep s = (s, []) := by
  cases hreg : s.needsRegeneration <;> cases hpd : s.photoDimensions <;>
    simp [regenStep, h, hreg, hpd]

theorem regenStep_no_dims {s : RState} (h : s.photoDimensions = none) :
    regenStep s = (s, []) := by
  cases hreg : s.needsRegeneration <;> cases hpt : s.photoTexture <;>
    simp [regenStep, h, hreg, hpt]

theorem regenStep_skip {s : RState}
    (h : s.needsRegeneration = false ∨ s.photoTexture = none ∨
      s.photoDimensions = none) :
    regenStep s = (s, []) := by
  rcases h with h | h | h
  · exact regenStep_not_dirty h
  · exact regenStep_no_photo h
  · exact regenStep_no_dims h

theorem regenStep_dirty {s : RState} {d : ℝ × ℝ}
    (hreg : s.needsRegeneration = true) (hpt : s.photoTexture = some ())
    (hpd : s.photoDimensions = some d) :
    regenStep s =
      ({ (updateGeometry s d).1 with needsRegeneration := false },
        (updateGeometry s d).2.1) := by
  simp [regenStep, hreg, hpt, hpd]

theorem render_fst (s : RState) : (render s).1 = (regenStep s).1 := by
  simp only [render]
  split_ifs <;> rfl

theorem updateTexture_no_drawStrip (s : RState) (m : ℕ) :
    GpuEvent.drawStrip m ∉ (updateTexture s).2.1 := by
  simp only [updateTexture]
  split_ifs <;> simp

theorem updateTexture_counts (s : RState) :
    (updateTexture s).2.1.countP isTexImage ≤ 1 ∧
    (updateTexture s).2.1.countP isDrawPhoto ≤ 1 := by
  simp only [updateTexture]
  split_ifs <;>
    simp [isTexImage, isDrawPhoto, List.countP_cons, List.countP_nil,
      List.countP_append]

theorem regenStep_no_drawStrip (s : RState) (m : ℕ) :
    GpuEvent.drawStrip m ∉ (regenStep s).2 := by
  by_cases hskip : s.needsRegeneration = false ∨ s.photoTexture = none ∨
      s.photoDimensions = none
  · rw [regenStep_skip hskip]
    simp
  · push_neg at hskip
    obtain ⟨hreg, hpt, hpd⟩ := hskip
    have hreg2 : s.needsRegeneration = true := by
      cases h : s.needsRegeneration
      · exact absurd h hreg
      · rfl
    cases hptc : s.photoTexture with
    | none => exact absurd hptc hpt
    | some u =>
      cases hpdc : s.photoDimensions with
      | none => exact absurd hpdc hpd
      | some d =>
        rw [regenStep_dirty hreg2 (by rw [hptc]) hpdc]
        simp only [updateGeometry]
        exact updateTexture_no_drawStrip _ m

/-- Per-render GPU-call bounds: the generated texture is reallocated at
most once and the rectification draw happens at most once per render. -/
theorem render_counts (s : RState) :
    (render s).2.countP isTexImage ≤ 1 ∧
    (render s).2.countP isDrawPhoto ≤ 1 := by
  by_cases hskip : s.needsRegeneration = false ∨ s.photoTexture = none ∨
      s.photoDimensions = none
  · simp only [render, regenStep_skip hskip]
    split_ifs <;>
      simp [isTexImage, isDrawPhoto, List.countP_cons, List.countP_nil]
  · push_neg at hskip
    obtain ⟨hreg, hpt, hpd⟩ := hskip
    have hreg2 : s.needsRegeneration = true := by
      cases h : s.needsRegeneration
      · exact absurd h hreg
      · rfl
    cases hptc : s.photoTexture with
    | none => exact absurd hptc hpt
    | some u =>
      cases hpdc : s.photoDimensions with
      | none => exact absurd hpdc hpd
      | some d =>
        have hc := updateTexture_counts (calcDistStep s d)
        simp only [render, regenStep_dirty hreg2 (by rw [hptc]) hpdc,
          updateGeometry]
        split_ifs <;> constructor <;>
          first
            | exact hc.1
            | exact hc.2
            | simpa [List.countP_append, List.countP_cons, List.countP_nil,
                isTexImage, isDrawPhoto] using hc.1
            | simpa [List.countP_append, List.countP_cons, List.countP_nil,
                isTexImage, isDrawPhoto] using hc.2

/-- C5 counterexample: after a geometry notification that leaves the
geometry unchanged, the newly computed texture dimensions (400 × 400) equal
the currently allocated ones, yet the dirty-cycle regeneration still issues
the `texImage2D` reallocation. -/
theorem c5_realloc_cex :
    state5.needsRegeneration = true ∧
    state5.allocatedDims = some (400, 400) ∧
    (calcDistStep state5 ((400 : ℝ), (400 : ℝ))).textureWidth = 400 ∧
    (calcDistStep state5 ((400 : ℝ), (400 : ℝ))).textureHeight = 400 ∧
    GpuEvent.texImage2D 400 400 ∈ (render state5).2 := by
  refine ⟨by rw [state5_eq], by rw [state5_eq], ?_, ?_, ?_⟩
  · rw [state5_eq]
    simp [calcDistStep, squareStripPts_photoPos, calc_square, squareCalc]
  · rw [state5_eq]
    simp [calcDistStep, squareStripPts_photoPos, calc_square, squareCalc]
  · rw [render_state5]
    simp

/-- C5 (amended): during a dirty-cycle regeneration the `texImage2D`
reallocation at the computed size occurs iff both computed texture
dimensions are nonzero — irrespective of whether they differ from the
current allocation. -/
theorem c5_realloc_iff {s : RState} {d : ℝ × ℝ}
    (hdirty : s.needsRegeneration = true)
    (hphoto : s.photoTexture = some ())
    (hdims : s.photoDimensions = some d) :
    (GpuEvent.texImage2D (calcDistStep s d).textureWidth
        (calcDistStep s d).textureHeight ∈ (render s).2) ↔
      ((calcDistStep s d).textureWidth ≠ 0 ∧
        (calcDistStep s d).textureHeight ≠ 0) := by
  simp only [render, regenStep_dirty hdirty hphoto hdims, updateGeometry]
  by_cases hw : (calcDistStep s d).textureWidth = 0 ∨
      (calcDistStep s d).textureHeight = 0
  · simp only [updateTexture, if_pos hw]
    split_ifs <;> rcases hw with h | h <;> simp [h]
  · rw [not_or] at hw
    simp only [updateTexture, if_neg (not_or.mpr hw)]
    split_ifs <;> simp [hw.1, hw.2]

/-- C5 witness: the hypotheses hold at the redundant-regeneration state and
the reallocation criterion evaluates there. -/
theorem c5_realloc_iff_w :
    state5.needsRegeneration = true ∧
    (GpuEvent.texImage2D (calcDistStep state5 ((400 : ℝ), (400 : ℝ))).textureWidth
        (calcDistStep state5 ((400 : ℝ), (400 : ℝ))).textureHeight
        ∈ (render state5).2 ↔
      ((calcDistStep state5 ((400 : ℝ), (400 : ℝ))).textureWidth ≠ 0 ∧
        (calcDistStep state5 ((400 : ℝ), (400 : ℝ))).textureHeight ≠ 0)) :=
  ⟨by rw [state5_eq],
   c5_realloc_iff (by rw [state5_eq]) (by rw [state5_eq]) (by rw [state5_eq])⟩

/-- C6 counterexample: after the ribbon drops to a single point (with a
photo bound and a successful earlier rebuild), `render` still issues the
compositing draw from the stale 4-vertex buffers, although the ribbon
currently has fewer than 2 boundary points. -/
theorem c6_stale_draw_cex :
    state3.points.length < 2 ∧ state3.photoTexture = some () ∧
    GpuEvent.drawStrip 4 ∈ (render state3).2 := by
  refine ⟨by rw [state3_eq]; norm_num [onePt], by rw [state3_eq], ?_⟩
  rw [render_state3]
  simp

/-- C6 (amended): when no photo source is bound, `render` is a complete
no-op (no GPU events, state unchanged); and whenever the cached vertex
count after servicing the dirty flag is below 2, no compositing draw is
issued.  The skip guard reads the cached vertex count of the last
successful rebuild, not the ribbon's current point count, so a ribbon that
dropped below 2 points after a successful rebuild can still be drawn. -/
theorem c6_skip_conditions (s : RState) :
    (s.photoTexture = none → render s = (s, [])) ∧
    ((render s).1.vertexCount < 2 →
      ∀ m, GpuEvent.drawStrip m ∉ (render s).2) := by
  constructor
  · intro hpt
    simp only [render, regenStep_no_photo hpt]
    rw [if_pos (Or.inr hpt)]
  · intro hvc m
    rw [render_fst] at hvc
    simp only [render, if_pos (Or.inl hvc)]
    exact regenStep_no_drawStrip s m

/-- C6 witness: on the freshly constructed renderer no photo is bound and
the cached vertex count is 0, so render is a no-op with no draw. -/
theorem c6_skip_conditions_w :
    render state0 = (state0, []) ∧
    (∀ m, GpuEvent.drawStrip m ∉ (render state0).2) := by
  have h := c6_skip_conditions state0
  have h0 : render state0 = (state0, []) := h.1 rfl
  exact ⟨h0, h.2 (by rw [h0]; norm_num [state0, initState])⟩

/-- C8: the area-change and photo-change callbacks perform no GPU events
and only set the dirty flag (the photo callback additionally replaces the
photo handle and dimensions); a render without a set flag and a present
photo emits no regeneration events; every render reallocates the texture at
most once and draws the rectification at most once; and a render that does
regenerate resets the flag to clean. -/
theorem c8_callbacks_only_mark_dirty (s : RState) (t : Unit) (d : ℝ × ℝ) :
    (onAreaChange s).2 = [] ∧
    (onAreaChange s).1 = { s with needsRegeneration := true } ∧
    (onPhotoChange t d s).2 = [] ∧
    (onPhotoChange t d s).1 =
      { s with
        photoTexture := some t, photoDimensions := some d,
        needsRegeneration := true } ∧
    ((s.needsRegeneration = false ∨ s.photoTexture = none ∨
        s.photoDimensions = none) →
      (render s).2.countP isRegenEvent = 0) ∧
    (render s).2.countP isTexImage ≤ 1 ∧
    (render s).2.countP isDrawPhoto ≤ 1 ∧
    (s.needsRegeneration = true → s.photoTexture = some () →
      s.photoDimensions = some d → (render s).1.needsRegeneration = false) := by
  refine ⟨rfl, rfl, rfl, rfl, ?_, (render_counts s).1, (render_counts s).2, ?_⟩
  · intro h
    simp only [render, regenStep_skip h]
    split_ifs <;> simp [isRegenEvent, List.countP_cons, List.countP_nil]
  · intro hreg hpt hpd
    rw [render_fst, regenStep_dirty hreg hpt hpd]

/-- C8 witness: concrete instantiations — a photo-less render emits no
regeneration events, and the first dirty render resets the flag. -/
theorem c8_callbacks_only_mark_dirty_w :
    (onAreaChange state0).2 = [] ∧
    (onPhotoChange () ((400 : ℝ), (400 : ℝ)) state0).2 = [] ∧
    (render state0).2.countP isRegenEvent = 0 ∧
    (render state1).1.needsRegeneration = false := by
  refine ⟨(c8_callbacks_only_mark_dirty state0 () ((400 : ℝ), (400 : ℝ))).1,
    (c8_callbacks_only_mark_dirty state0 () ((400 : ℝ), (400 : ℝ))).2.2.1, ?_, ?_⟩
  · exact (c8_callbacks_only_mark_dirty state0 () ((400 : ℝ), (400 : ℝ))).2.2.2.2.1
      (Or.inl rfl)
  · exact (c8_callbacks_only_mark_dirty state1 ()
      ((400 : ℝ), (400 : ℝ))).2.2.2.2.2.2.2 rfl rfl rfl

/-- C10 counterexample: through `render`, the generated texture can be
cleared with no rectification draw issued — via the fewer-than-2-points
early return, not the no-photo branch (here a photo is bound). -/
theorem c10_clear_without_photo_draw_cex :
    state3.photoTexture = some () ∧
    GpuEvent.clear ∈ (render state3).2 ∧
    (render state3).2.countP isDrawPhoto = 0 := by
  refine ⟨by rw [state3_eq], ?_, ?_⟩ <;> rw [render_state3]
  · simp
  · simp [isDrawPhoto, List.countP_cons, List.countP_nil]

/-- C10 (amended): the rectification pass's no-photo early return is
unreachable through `render`: regeneration is guarded on the photo handle
and dimensions being present, and the distance step preserves both, so
`updateTexture` never takes its no-photo branch during a render. -/
theorem c10_no_photo_branch_unreachable (s : RState) :
    renderNoPhotoBranchTaken s = false := by
  rw [renderNoPhotoBranchTaken]
  cases hreg : s.needsRegeneration <;> cases hpt : s.photoTexture <;>
    cases hpd : s.photoDimensions <;> simp only []
  case true.some.some u d =>
    simp only [updateGeometry, updateTexture]
    split_ifs with h1 h2
    · rfl
    · exfalso
      rw [calcDistStep_photoTexture, calcDistStep_photoDimensions, hpt, hpd] at h2
      simp at h2
    · rfl
    · rfl

end Trees
